import Mathlib

/-!
Verification of the sockpuppet dispatch-and-broadcast pipeline.

Shallow embedding of `channel.py`, `reflex.py` and `consumer.py`:
Python dictionaries become insertion-ordered association lists, JSON
values become an inductive `JVal`, the pub/sub layer's `send` /
`group_send` calls become elements of an explicit send trace, and the
redis counter store becomes a finite map from string keys to records.
Fallible Python code (statements that can raise) returns `Option` /
`Except`.
-/

set_option autoImplicit false
set_option linter.unusedVariables false

namespace Sockpuppet

/-- JSON-like values: the payloads that travel through the channel layer. -/
inductive JVal where
  | str (s : String)
  | jbool (b : Bool)
  | num (n : Int)
  | jnull
  | arr (l : List JVal)
  | obj (l : List (String × JVal))
deriving Repr

/-- A Python dictionary with string keys: an insertion-ordered association list. -/
abbrev Dict := List (String × JVal)

/-- `d[k] = v` on a Python dict: replace the value at the first occurrence of
`k` keeping its position, or append `(k, v)` at the end when `k` is absent. -/
def dictSet (d : Dict) (k : String) (v : JVal) : Dict :=
  match d with
  | [] => [(k, v)]
  | (k', v') :: rest =>
      if k' = k then (k', v) :: rest else (k', v') :: dictSet rest k v

/-- Python `d.update(kw)`: assign each pair of `kw`, in order, into `d`. -/
def dictUpdate (d kw : Dict) : Dict :=
  kw.foldl (fun acc p => dictSet acc p.1 p.2) d

/-- Python `d[k]` lookup (first occurrence). -/
def dictGet (d : Dict) (k : String) : Option JVal :=
  match d with
  | [] => none
  | (k', v) :: rest => if k' = k then some v else dictGet rest k

/-- Helper for `pySplit`: walk the characters, cutting at every separator. -/
def splitAux (sep : Char) : List Char → List Char → List (List Char)
  | [], acc => [acc.reverse]
  | c :: cs, acc =>
      if c = sep then acc.reverse :: splitAux sep cs []
      else splitAux sep cs (c :: acc)

/-- Python `s.split(sep)` for a one-character separator: `"a!b".split("!") =
["a", "b"]`, `"".split("!") = [""]`, `"!!".split("!") = ["", "", ""]`. -/
def pySplit (sep : Char) (s : String) : List String :=
  (splitAux sep s.data []).map String.mk

/-- Python `sub in s` substring containment. -/
def pyContains (s sub : String) : Bool :=
  decide (List.IsInfix sub.data s.data)

/-- Capitalize the first character (Python `str.title()` on one word,
as used by the snake→camel conversion). -/
def capitalizeWord (s : String) : String :=
  match s.data with
  | [] => ""
  | c :: cs => String.mk (c.toUpper :: cs)

/-- Modelled from the spec: `utils.camelcase` (the module `utils.py` is not
under `src/`).  The spec's wire convention converts snake_case operation
keys to camelCase: the first underscore-separated word is kept, every later
word is capitalized, e.g. `"add_css_class" ↦ "addCssClass"`; keys without
an underscore pass through unchanged. -/
def camelcase (s : String) : String :=
  match pySplit '_' s with
  | [] => s
  | w :: ws => String.join (w :: ws.map capitalizeWord)

mutual
/-- Modelled from the spec: `utils.camelize_value` (the module `utils.py` is
not under `src/`).  The wire naming convention is applied "once at
serialization, covering nested option values (lists and maps) recursively":
every object key is camelcased, values are walked recursively. -/
def camelizeValue : JVal → JVal
  | .str s => .str s
  | .jbool b => .jbool b
  | .num n => .num n
  | .jnull => .jnull
  | .arr l => .arr (camelizeList l)
  | .obj l => .obj (camelizeObj l)

def camelizeList : List JVal → List JVal
  | [] => []
  | v :: vs => camelizeValue v :: camelizeList vs

def camelizeObj : List (String × JVal) → List (String × JVal)
  | [] => []
  | (k, v) :: rest => (camelcase k, camelizeValue v) :: camelizeObj rest
end

/-- Minimal JSON string escaping, as `json.dumps` performs on the channel
name interpolated into the default identifier. -/
def jsonEscape (s : String) : String :=
  String.join (s.data.map fun c =>
    if c = '"' then "\\\"" else if c = '\\' then "\\\\" else String.mk [c])

/-- `json.dumps({"channel": name}).replace(" ", "")` from `Channel.__init__`:
the serialized one-key object with every space removed (spaces inside
`name` are removed too, exactly as the Python does). -/
def defaultIdentifier (name : String) : String :=
  (("\x7b\"channel\": \"" ++ jsonEscape name ++ "\"\x7d").replace " " "")

/-- The fixed operation kinds, in the order `Channel.stub` declares them. -/
def kindList : List String :=
  ["add_css_class", "dispatch_event", "inner_html", "insert_adjacent_html",
   "insert_adjacent_text", "morph", "outer_html", "remove_attribute",
   "remove_css_class", "remove", "set_attribute", "set_dataset_property",
   "set_style", "set_value", "text_content", "javascript", "data",
   "windowData", "consoleLog"]

/-- `Channel.stub()`: the fresh operations dict, every kind mapped to an
empty list. -/
def stub : List (String × List Dict) :=
  kindList.map (fun k => (k, []))

/-- `Channel` from `channel.py`: a destination name, a correlation
identifier and the per-kind queued operations. -/
structure Channel where
  name : String
  identifier : String
  operations : List (String × List Dict)

/-- `Channel.__init__(name, identifier="")`: an empty identifier is replaced
by the serialized `{"channel": name}` with spaces stripped. -/
def Channel.init (name : String) (identifier : String) : Channel :=
  { name := name
    identifier := if identifier = "" then defaultIdentifier name else identifier
    operations := stub }

/-- `Channel.clear()`. -/
def Channel.clear (c : Channel) : Channel :=
  { c with operations := stub }

/-- `self.operations[key].append(options)`.  In Python an unknown `key`
raises `KeyError`; every caller in the source uses a key of `stub`, for
which this update is the appended list. -/
def Channel.add_operation (c : Channel) (key : String) (options : Dict) : Channel :=
  { c with operations :=
      c.operations.map (fun p => if p.1 = key then (p.1, p.2 ++ [options]) else p) }

/-- The queued operations of one kind. -/
def Channel.opsOf (c : Channel) (key : String) : List Dict :=
  match c.operations.find? (fun p => p.1 = key) with
  | some p => p.2
  | none => []

/-- Whether a publish reached one connection (`channel_layer.send`) or a
group (`channel_layer.group_send`). -/
inductive SendKind where
  | direct
  | group
deriving Repr, DecidableEq

/-- One publish: its kind, destination string and JSON message. -/
structure Send where
  kind : SendKind
  dest : String
  message : JVal
deriving Repr

/-- The outbound wire message of `Channel.broadcast`: identifier, the fixed
`type`/`cableReady` discriminators, and the camelized operations object. -/
def buildMessage (identifier : String) (ops : List (String × JVal)) : JVal :=
  .obj [("identifier", .str identifier), ("type", .str "message"),
        ("cableReady", .jbool true), ("operations", .obj ops)]

/-- The operations object `broadcast` serializes: one key per kind with a
non-empty queue, key camelcased, value camelized recursively. -/
def wireOperations (c : Channel) : List (String × JVal) :=
  (c.operations.filter (fun p => !p.2.isEmpty)).map
    (fun p => (camelcase p.1, camelizeValue (.arr (p.2.map JVal.obj))))

/-- `Channel.broadcast()`.  Builds the wire message; if `"specific."` occurs
in the destination name it sends directly to the *full* destination name,
then rewrites the identifier to name the group after the first `"!"` and
group-sends there; otherwise it group-sends to the destination name.
Finally the batch is cleared.  When the name contains `"specific."` but no
`"!"`, the Python raises `IndexError` on `split("!")[1]` after the direct
send has already gone out and before `clear()` runs: that raising run is
modelled as `none`. -/
def Channel.broadcast (c : Channel) : Option (List Send × Channel) :=
  let ops := wireOperations c
  let message := buildMessage c.identifier ops
  if pyContains c.name "specific." then
    match pySplit '!' c.name with
    | [] => none
    | [_] => none
    | _ :: grp :: _ =>
        let message2 := buildMessage ("\x7b\"channel\":\"" ++ grp ++ "\"\x7d") ops
        some ([⟨.direct, c.name, message⟩, ⟨.group, grp, message2⟩], c.clear)
  else
    some ([⟨.group, c.name, message⟩], c.clear)

/-- One operation-adding method call (`dispatch_event`, `morph`, …) of
`channel.py`.  Each such method is declared as
`def method(self, options={}, **kwargs)` and runs
`options.update(kwargs); self.add_operation(kind, options)`.
The default dict `options={}` is a single mutable object created when the
function is defined and shared by every call (on any `Channel` instance)
that omits the positional argument; `update` mutates it in place.
`methodDefault` is that shared dict's current state; the call returns the
new shared-default state, the options value stored into the batch, and the
updated batch. -/
def callOpMethod (kind : String) (methodDefault : Dict) (optionsArg : Option Dict)
    (kwargs : Dict) (c : Channel) : Dict × Dict × Channel :=
  match optionsArg with
  | some o =>
      let stored := dictUpdate o kwargs
      (methodDefault, stored, c.add_operation kind stored)
  | none =>
      let stored := dictUpdate methodDefault kwargs
      (stored, stored, c.add_operation kind stored)

/-- `Channel.dispatch_event(options)` called with a positional options dict
(as every dispatcher call site does): `options.update(kwargs)` with empty
`kwargs`, then `add_operation`. -/
def Channel.dispatch_event (c : Channel) (options : Dict) : Channel :=
  c.add_operation "dispatch_event" (dictUpdate options [])

/-- `Channel.morph(options)` called with a positional options dict. -/
def Channel.morph (c : Channel) (options : Dict) : Channel :=
  c.add_operation "morph" (dictUpdate options [])

/-- `Channel.data(options)` called with a positional options dict. -/
def Channel.dataOp (c : Channel) (options : Dict) : Channel :=
  c.add_operation "data" (dictUpdate options [])

/-- The HTML error banner `Reflex.morph` prepends when the debug validator
rejects the markup. -/
def errorBanner : String :=
  "<div class=\"text-bg-danger\">Mismatched HTML tag</div>"

/-- `Reflex.morph` from `reflex.py` (the complete version, lines 169-268).
Sets `is_morph`, builds a `Channel` on the consumer's channel name and the
reflex identifier; with no selector, no html and no template it queues one
`dispatch_event` operation named `"emptymorph"`, otherwise it queues one
`morph` operation on the resolved markup; either way it then broadcasts.
External collaborators appear as parameters: `renderedTemplate` is the
output of the template engine (`Template.render` / `render_to_string`), and
`validates` is the verdict of the stdlib-`HTMLParser`-based `TagValidator`
(consulted only when both settings flags are on and the markup is
non-empty).  Returns `is_morph`, the broadcaster as queued just before
`broadcast()`, and the broadcast outcome. -/
def Reflex.morph (channelName identifier : String) (reflexId : JVal) (url : String)
    (permAttrName : JVal)
    (selector : String) (html : Option String) (template : String)
    (renderedTemplate : String)
    (settingsDebug settingsDebugHtmlValidation : Bool)
    (validates : String → Bool)
    (selectAll : Bool) :
    Bool × Channel × Option (List Send × Channel) :=
  let broadcaster := Channel.init channelName identifier
  let broadcaster :=
    if (selector = "" ∧ html = none ∧ template = "") ∧ selector = "" then
      broadcaster.dispatch_event
        [("name", .str "emptymorph"),
         ("detail", .obj [("stimulus_reflex",
             .obj [("reflexId", reflexId), ("url", .str url)])])]
    else
      let resolved := match html with
        | some h => h
        | none => renderedTemplate
      let resolved :=
        if resolved ≠ "" ∧ settingsDebug ∧ settingsDebugHtmlValidation
            ∧ ¬validates resolved then
          errorBanner ++ resolved
        else resolved
      broadcaster.morph
        [("selector", .str selector), ("html", .str resolved),
         ("children_only", .jbool true), ("select_all", .jbool selectAll),
         ("permanent_attribute_name", permAttrName),
         ("stimulus_reflex", .obj [("morph", .str "selector"),
             ("reflexId", reflexId), ("url", .str url)])]
  (true, broadcaster, broadcaster.broadcast)

/-! ## Dispatcher: `consumer.py` -/

/-- The inbound invocation message, with exactly the fields
`reflex_message` reads.  `data["url"]`, `data["selectors"]`,
`data["target"]`, `data["identifier"]`, `data["attrs"]` and
`data["reflexId"]` are accessed unconditionally in the source, so they are
plain fields; the two permanent-attribute keys are read with
`.get`-or-`[]` fallback, so they are optional. -/
structure InboundData where
  target : String
  url : String
  selectors : List String
  identifier : String
  args : List JVal
  formData : List (String × String)
  attrs : Dict
  reflexId : String
  permanent_attribute_name : Option String
  permanentAttributeName : Option String

/-- `data` echoed back into an operation payload (`{**data}` /
`{"stimulus_reflex": data}`). -/
def InboundData.toJVal (d : InboundData) : JVal :=
  .obj [("target", .str d.target), ("url", .str d.url),
        ("selectors", .arr (d.selectors.map JVal.str)),
        ("identifier", .str d.identifier),
        ("args", .arr d.args),
        ("attrs", .obj d.attrs),
        ("reflexId", .str d.reflexId)]

/-- How a registered handler behaves when the dispatcher drives it: which
method names exist, whether the called method raises (exception class name
and message), and whether it called `Reflex.morph` during execution
(setting `is_morph`). -/
structure HandlerSpec where
  methods : List String
  raises : Option (String × String)
  callsMorph : Bool

/-- Observable dispatcher actions while processing one message. -/
inductive Event where
  | logWarning (msg : String)
  | logException (msg : String)
  | errorBroadcast (body : String)
  | invoked (cls method : String)
  | publish (sends : List Send)
deriving Repr

/-- The `reflex_class_name, method_name = target.split("#")` step: a
2-tuple unpacking that succeeds exactly when the split has two parts. -/
def splitTarget (target : String) : Option (String × String) :=
  match pySplit '#' target with
  | [cls, m] => some (cls, m)
  | _ => none

/-- The `reflex_message cannot split` warning text. -/
def splitWarning (target : String) : String :=
  "reflex_message cannot split [" ++ target ++ "]"

/-- The missing-class error text of the `TypeError` branch. -/
def missingClassMsg (cls : String) : String :=
  "Sockpuppet tried to find a reflex class called " ++ cls ++
    ". Are you sure such a class exists?"

/-- The generic invocation-failure error text. -/
def invokeFailedMsg (target url error : String) : String :=
  "SockpuppetConsumer failed to invoke " ++ target ++ ", with url " ++
    url ++ ". " ++ error

/-- The re-render failure error text. -/
def rerenderFailedMsg (url error : String) : String :=
  "SockpuppetConsumer failed to re-render " ++ url ++ " " ++ error

/-- The `data.update({"serverMessage": ...})` echo `broadcast_error`
performs before queueing its event: the request dict extended with the
error subject and body. -/
def errorEcho (d : InboundData) (message : String) : JVal :=
  match d.toJVal with
  | .obj fields => .obj (fields ++
      [("serverMessage", .obj [("subject", .str "error"), ("body", .str message)])])
  | v => v

/-- `BaseConsumer.broadcast_error(message, data, reflex=None)` for the
no-reflex case: destination is the session key; the identifier defaults to
the session key when the inbound data carries none (`InboundData` always
carries one, matching the unconditional `data["identifier"]` read earlier
in `reflex_message`).  Queues one `dispatch_event` operation carrying
`{subject: "error", body: message}` inside the echoed request
(`errorEcho`) and broadcasts it. -/
def broadcast_error (sessionKey : String) (message : String) (d : InboundData) :
    Channel × Option (List Send × Channel) :=
  let channel := Channel.init sessionKey d.identifier
  let channel := channel.dispatch_event
    [("name", .str "stimulus-reflex:server-message"),
     ("detail", .obj [("stimulus_reflex", errorEcho d message)])]
  (channel, channel.broadcast)

/-- The permanent-attribute-name resolution of `broadcast_morphs`:
`data.get("permanent_attribute_name")`, and when that is missing or falsy,
`data["permanentAttributeName"]` — whose absence raises `KeyError`
(`none`). -/
def resolvePan (d : InboundData) : Option String :=
  match d.permanent_attribute_name with
  | some s => if s = "" then d.permanentAttributeName else some s
  | none => d.permanentAttributeName

/-- The `morph` operation `broadcast_morphs` queues for one selector. -/
def morphOptionsFor (d : InboundData) (html : String)
    (fragmentOf : String → String → String) (pan sel : String) : Dict :=
  [("selector", .str sel),
   ("html", .str (fragmentOf html sel)),
   ("children_only", .jbool true),
   ("permanent_attribute_name", .str pan),
   ("stimulus_reflex", d.toJVal)]

/-- The single batch `broadcast_morphs` fills: one `morph` operation per
selector, in order. -/
def morphChannel (channelName : String) (selectors : List String)
    (d : InboundData) (html : String) (fragmentOf : String → String → String)
    (pan : String) : Channel :=
  selectors.foldl
    (fun ch sel => ch.morph (morphOptionsFor d html fragmentOf pan sel))
    (Channel.init channelName d.identifier)

/-- `BaseConsumer.broadcast_morphs(selectors, data, html, reflex)`.
`get_document_and_selectors` and `parse_out_html` live in `utils.py`,
which is not under `src/`.  Modelled from the spec: the fragment extractor
is "given markup and a selector list" and "returns the matched sub-trees'
markup per selector", so the selector list passes through unchanged and
`fragmentOf` gives each selector's extracted markup from the parsed
document.  A missing permanent attribute name raises `KeyError`
(`resolvePan = none`); a composite-without-bang destination raises
`IndexError` inside `broadcast`. -/
def broadcast_morphs (channelName : String) (selectors : List String)
    (d : InboundData) (html : String) (fragmentOf : String → String → String) :
    Except String (List Send) :=
  match resolvePan d with
  | none => .error "KeyError: permanentAttributeName"
  | some pan =>
    match (morphChannel channelName selectors d html fragmentOf pan).broadcast with
    | some (sends, _) => .ok sends
    | none => .error "IndexError: list index out of range"

/-- `BaseConsumer.render_page_and_broadcast_morph(reflex, selectors, data)`:
return immediately when the handler already morphed; otherwise ask the
external page renderer (`render_page`, whose view call and outcome appear
as `renderResult`) and, when the markup is non-empty, broadcast the
per-selector morphs.  An `.error` models an exception propagating to the
caller's re-render `try`/`except`. -/
def render_page_and_broadcast_morph (isMorph : Bool)
    (renderResult : Except String String) (channelName : String)
    (selectors : List String) (d : InboundData)
    (fragmentOf : String → String → String) : Except String (List Send) :=
  if isMorph then .ok []
  else
    match renderResult with
    | .error e => .error e
    | .ok html =>
        if html = "" then .ok []
        else broadcast_morphs channelName selectors d html fragmentOf

/-- `BaseConsumer.reflex_message(data)` as the events it produces.  The
handler registry `self.reflexes` is passed in already loaded (the lazy
`load_reflexes` discovery is an external collaborator; the claims below
hypothesize a non-empty registry, in which case the source skips loading).
`renderResult` is the external page renderer's outcome for this message,
consulted only on the successful no-manual-morph path.  The `settings.DEBUG`
file dump writes to disk and produces no observable event.  The playback:
split `target` on `"#"` (a failed 2-tuple unpacking is caught and logged,
after which the two names stay unbound, so the later registry lookup raises
`NameError`, caught by the generic `except Exception` branch); look the
class up in the registry (`None` is not callable, so a missing class raises
`TypeError`, answered with the missing-class error broadcast); invoke the
method (a missing method name raises `AttributeError` inside
`delegate_call_to_reflex`); a raising handler is classified by exception
class (`TypeError` from a present class reuses that branch's `str(exc)`
message); on success run the automatic re-render, whose failure becomes
the re-render error broadcast. -/
def reflex_message (registry : List (String × HandlerSpec))
    (sessionKey channelName : String)
    (renderResult : Except String String)
    (fragmentOf : String → String → String)
    (d : InboundData) : List Event :=
  let selectors := if d.selectors = [] then ["body"] else d.selectors
  let splitOk := splitTarget d.target
  let preEvents : List Event :=
    match splitOk with
    | some _ => []
    | none => [.logWarning (splitWarning d.target)]
  if registry.isEmpty then
    -- `load_reflexes` would run here; the claims below assume a warm registry.
    preEvents
  else
    match splitOk with
    | none =>
        let msg := invokeFailedMsg d.target d.url
          "NameError: name reflex_class_name is not defined"
        preEvents ++ [.errorBroadcast msg, .logException msg]
    | some (cls, m) =>
        match registry.find? (fun p => p.1 = cls) with
        | none =>
            let msg := missingClassMsg cls
            preEvents ++ [.errorBroadcast msg, .logException msg]
        | some (_, spec) =>
            if m ∈ spec.methods then
              match spec.raises with
              | some (excCls, excMsg) =>
                  if excCls = "TypeError" then
                    preEvents ++ [.invoked cls m, .errorBroadcast excMsg,
                      .logException excMsg]
                  else
                    let msg := invokeFailedMsg d.target d.url
                      (excCls ++ ": " ++ excMsg)
                    preEvents ++ [.invoked cls m, .errorBroadcast msg,
                      .logException msg]
              | none =>
                  let rendered := render_page_and_broadcast_morph spec.callsMorph
                    renderResult channelName selectors d fragmentOf
                  match rendered with
                  | .ok sends =>
                      preEvents ++ [.invoked cls m] ++
                        (if sends.isEmpty then [] else [Event.publish sends])
                  | .error e =>
                      let msg := rerenderFailedMsg d.url e
                      preEvents ++ [.invoked cls m, .errorBroadcast msg,
                        .logException msg]
            else
              let msg := invokeFailedMsg d.target d.url
                ("AttributeError: " ++ m)
              preEvents ++ [.errorBroadcast msg, .logException msg]

/-- The connection's message loop over invocation messages: each message is
processed in arrival order; `reflex_message` catches its failures
internally and never tears the connection down, so processing always
continues with the next message.  Each message comes paired with the
external renderer's outcome for it. -/
def processMessages (registry : List (String × HandlerSpec))
    (sessionKey channelName : String)
    (fragmentOf : String → String → String)
    (msgs : List (InboundData × Except String String)) : List Event :=
  match msgs with
  | [] => []
  | (d, r) :: rest =>
      reflex_message registry sessionKey channelName r fragmentOf d ++
        processMessages registry sessionKey channelName fragmentOf rest

/-! ## Metrics: the per-handler-per-day record of `receive_json` -/

/-- The redis hash `siu:perf:reflexes:<name>:<date>`.  Field values are the
exact rationals of the model; absent min/max fields are `none`. -/
structure MetricRecord where
  count : Nat
  cpu_time_total : ℚ
  wall_time_total : ℚ
  wall_time_min : Option ℚ
  wall_time_max : Option ℚ
  cpu_time_min : Option ℚ
  cpu_time_max : Option ℚ
deriving Repr, DecidableEq

/-- The record as `hset key count 0` creates it: totals absent, which
`hincrbyfloat` treats as `0`. -/
def emptyRecord : MetricRecord := ⟨0, 0, 0, none, none, none, none⟩

/-- One invocation's bookkeeping on the day record (`receive_json` lines
205-263): create the record at `count = 0` if absent, `hincrby count 1`,
`hincrbyfloat` both totals, then for each of the four min/max fields:
overwrite when the new sample is strictly smaller (resp. larger) than the
stored value, or store it outright when the field is absent. -/
def metricsStep (r? : Option MetricRecord) (cpu wall : ℚ) : MetricRecord :=
  let r := r?.getD emptyRecord
  let r := { r with
    count := r.count + 1
    cpu_time_total := r.cpu_time_total + cpu
    wall_time_total := r.wall_time_total + wall }
  let r := { r with wall_time_min :=
    match r.wall_time_min with
    | some m => if wall < m then some wall else some m
    | none => some wall }
  let r := { r with wall_time_max :=
    match r.wall_time_max with
    | some m => if wall > m then some wall else some m
    | none => some wall }
  let r := { r with cpu_time_min :=
    match r.cpu_time_min with
    | some m => if cpu < m then some cpu else some m
    | none => some cpu }
  { r with cpu_time_max :=
    match r.cpu_time_max with
    | some m => if cpu > m then some cpu else some m
    | none => some cpu }

/-- The redis key of a handler's day record. -/
def metricsKey (name date : String) : String :=
  "siu:perf:reflexes:" ++ name ++ ":" ++ date

/-- The counter store: key → day record. -/
abbrev MetricStore := String → Option MetricRecord

/-- One invocation's update of the keyed store. -/
def metricsUpdate (store : MetricStore) (name date : String) (cpu wall : ℚ) :
    MetricStore :=
  fun k =>
    if k = metricsKey name date then
      some (metricsStep (store (metricsKey name date)) cpu wall)
    else store k

/-- N invocations of the same handler on the same day, with the observed
(cpu, wall) millisecond pairs in order. -/
def metricsRun (store : MetricStore) (name date : String)
    (samples : List (ℚ × ℚ)) : MetricStore :=
  samples.foldl (fun st p => metricsUpdate st name date p.1 p.2) store

/-- The outcome of `receive_json` on one invocation message: whether an
exception escaped it, whether `reflex_message` (the dispatch itself) was
reached, and the resulting counter store. -/
structure RJOutcome where
  raised : Bool
  handlerInvoked : Bool
  store : MetricStore

/-- A counter-store call: raises when the connection is failing. -/
def rcall (failing : Bool) {α : Type} (v : α) : Except Unit α :=
  if failing then .error () else .ok v

/-- The metrics wrapper of `BaseConsumer.receive_json` (lines 168-269)
around one invocation message (`type` absent, `target` present).  The
source contains no `try`/`except`: every counter-store call that raises
propagates out of `receive_json`.  In order: the two profiler-gating reads
(`hexists` on the per-handler opt-in hash, `get` on the global flag) — both
run *before* `self.reflex_message(data)`; then the dispatch; then the
latest-duration writes and the day-record read-modify-write sequence, whose
successful effect on the store is `metricsUpdate` (its per-field semantics
is `metricsStep`).  `failing` models a counter-store connection that raises
on every call. -/
def receive_json_invocation (failing : Bool) (store : MetricStore)
    (profListed profGlobal : Bool) (name date : String) (cpu wall : ℚ) :
    RJOutcome :=
  match rcall failing profListed with
  | .error _ => ⟨true, false, store⟩
  | .ok _ =>
    match rcall failing profGlobal with
    | .error _ => ⟨true, false, store⟩
    | .ok _ =>
      -- profiler start (external), then the dispatch itself
      match rcall failing () with
      -- latest-duration `set` calls and the day-record update
      | .error _ => ⟨true, true, store⟩
      | .ok _ => ⟨false, true, metricsUpdate store name date cpu wall⟩

/-! ## Group membership: `connect` / `subscribe` / `disconnect` -/

/-- The channel layer's group state: group name → member channel names
(the redis keys `asgi:group:<name>`, one per existing group). -/
structure GroupLayer where
  groups : List (String × List String)
deriving Repr

/-- The members of a group; a group without a key has no members. -/
def groupMembers (L : GroupLayer) (g : String) : List String :=
  match L.groups.find? (fun p => p.1 = g) with
  | some p => p.2
  | none => []

/-- `channel_layer.group_add(g, chan)`: set-like insertion. -/
def group_add (L : GroupLayer) (g chan : String) : GroupLayer :=
  if (L.groups.find? (fun p => p.1 = g)).isSome then
    { groups := L.groups.map (fun p =>
        if p.1 = g then (p.1, if chan ∈ p.2 then p.2 else p.2 ++ [chan]) else p) }
  else
    { groups := L.groups ++ [(g, [chan])] }

/-- `channel_layer.group_discard(g, chan)`: remove the channel from the
group's member set; a no-op on groups it is not in. -/
def group_discard (L : GroupLayer) (g chan : String) : GroupLayer :=
  { groups := L.groups.map (fun p =>
      if p.1 = g then (p.1, p.2.filter (fun c => c ≠ chan)) else p) }

/-- `BaseConsumer._get_channelname` followed by `subscribe`'s
transport-safe normalization: the channel name extracted from the
`{"channel": name}` JSON envelope when the raw value parses as one
(`parsed = some name`, with `"::"` replaced by `"-"`), else the raw string;
then `"="` and `"%"` replaced by `"-"`; then `group_add`.  The stdlib
`json.loads` itself is external; `parsed` is its outcome. -/
def subscribe (L : GroupLayer) (parsed : Option String) (raw chan : String) :
    GroupLayer :=
  let name := match parsed with
    | some n => n.replace "::" "-"
    | none => raw
  let name := (name.replace "=" "-").replace "%" "-"
  group_add L name chan

/-- `BaseConsumer.disconnect`: when the scope carries a session, iterate
every `asgi:group:*` key in the layer's redis database and discard this
connection's channel from each, then discard it from the session-key
group. -/
def disconnect (hasSession : Bool) (sessionKey chan : String)
    (L : GroupLayer) : GroupLayer :=
  if hasSession then
    let keys := L.groups.map (fun p => p.1)
    let L1 := keys.foldl (fun acc g => group_discard acc g chan) L
    group_discard L1 sessionKey chan
  else L

/-- The operations object of an outbound wire message. -/
def msgOperations (m : JVal) : List (String × JVal) :=
  match m with
  | .obj fields =>
      match dictGet fields "operations" with
      | some (.obj ops) => ops
      | _ => []
  | _ => []

/-- A batch whose operations dict still has exactly the `stub` keys — true
of every channel the source constructs, since `__init__`, `clear` and
`add_operation` never add or remove keys. -/
def ChannelWF (c : Channel) : Prop :=
  c.operations.map Prod.fst = kindList

/-- How many operations of one (wire, camelCased) kind a message carries. -/
def msgOpCount (m : JVal) (wireKind : String) : Nat :=
  match (msgOperations m).find? (fun p => p.1 = wireKind) with
  | some (_, .arr l) => l.length
  | _ => 0

/-- The number of error broadcasts in an event trace. -/
def errorBroadcastCount (evs : List Event) : Nat :=
  (evs.filter (fun e => match e with | .errorBroadcast _ => true | _ => false)).length

/-- A concrete inbound invocation message, for witnesses and
counterexamples. -/
def exampleData : InboundData :=
  { target := "Counter#increment"
    url := "http://h/x"
    selectors := ["#count"]
    identifier := "\x7b\"channel\":\"sess1\"\x7d"
    args := []
    formData := []
    attrs := []
    reflexId := "r1"
    permanent_attribute_name := none
    permanentAttributeName := some "data-permanent" }

/-- `exampleData` with a handler name absent from any registry. -/
def exampleDataMissing : InboundData :=
  { exampleData with target := "Nope#go" }

/-- `exampleData` with a target that cannot be split on `"#"`. -/
def exampleDataNoHash : InboundData :=
  { exampleData with target := "CounterIncrement" }

/-- A registered, well-behaved `Counter` handler: one method `increment`
that neither raises nor performs a manual morph. -/
def counterSpec : HandlerSpec :=
  { methods := ["increment"], raises := none, callsMorph := false }

/-- A one-handler registry, for witnesses. -/
def exampleRegistry : List (String × HandlerSpec) :=
  [("Counter", counterSpec)]

/-- A concrete batch with one queued `morph` operation, for witnesses. -/
def c2ch : Channel :=
  (Channel.init "G" "I").add_operation "morph" [("selector", .str "#a")]

/-! ## Supporting lemmas -/

theorem dictGet_dictSet_self (d : Dict) (k : String) (v : JVal) :
    dictGet (dictSet d k v) k = some v := by
  induction d with
  | nil => simp [dictSet, dictGet]
  | cons p rest ih =>
      obtain ⟨k', v'⟩ := p
      by_cases h : k' = k
      · simp [dictSet, h, dictGet]
      · simp [dictSet, h, dictGet, ih]

theorem dictGet_dictSet_ne (d : Dict) (k k' : String) (v : JVal) (h : k' ≠ k) :
    dictGet (dictSet d k v) k' = dictGet d k' := by
  induction d with
  | nil => simp [dictSet, dictGet, Ne.symm h]
  | cons p rest ih =>
      obtain ⟨k1, v1⟩ := p
      by_cases h1 : k1 = k
      · subst h1
        simp [dictSet, dictGet, Ne.symm h]
      · simp [dictSet, dictGet, h1, ih]

theorem dictGet_dictUpdate_of_notMem (d kw : Dict) (k : String)
    (h : k ∉ kw.map Prod.fst) :
    dictGet (dictUpdate d kw) k = dictGet d k := by
  induction kw generalizing d with
  | nil => rfl
  | cons q rest ih =>
      simp only [List.map_cons, List.mem_cons, not_or] at h
      show dictGet (dictUpdate (dictSet d q.1 q.2) rest) k = dictGet d k
      rw [ih (dictSet d q.1 q.2) h.2, dictGet_dictSet_ne _ _ _ _ h.1]

theorem dictGet_dictUpdate_of_mem (d kw : Dict) (p : String × JVal)
    (hnd : (kw.map Prod.fst).Nodup) (hp : p ∈ kw) :
    dictGet (dictUpdate d kw) p.1 = some p.2 := by
  induction kw generalizing d with
  | nil => cases hp
  | cons q rest ih =>
      simp only [List.map_cons, List.nodup_cons] at hnd
      rcases List.mem_cons.mp hp with h | h
      · subst h
        show dictGet (dictUpdate (dictSet d p.1 p.2) rest) p.1 = some p.2
        rw [dictGet_dictUpdate_of_notMem _ _ _ hnd.1, dictGet_dictSet_self]
      · exact ih (dictSet d q.1 q.2) hnd.2 h

/-! ## C10: the shared mutable default options dict -/

/-- C10 (counterexample to the claim as stated): with the first call passing
keyword `a = "1"` and the second call passing keyword `a = "2"` (both
omitting the positional options argument, on different batch instances),
the options stored by the second call do NOT contain the first call's
key/value pair `a = "1"` — the second call's value for the same key wins —
so the claim's "contain every keyword key/value that was passed to the
first call" fails. -/
theorem c10_counterexample :
    dictGet (callOpMethod "dispatch_event"
        (callOpMethod "dispatch_event" [] none [("a", .str "1")]
          (Channel.init "G" "I")).1
        none [("a", .str "2")] (Channel.init "G2" "I2")).2.1 "a"
      = some (.str "2")
    ∧ ¬ dictGet (callOpMethod "dispatch_event"
        (callOpMethod "dispatch_event" [] none [("a", .str "1")]
          (Channel.init "G" "I")).1
        none [("a", .str "2")] (Channel.init "G2" "I2")).2.1 "a"
      = some (.str "1") :=
  ⟨rfl, fun h => absurd (JVal.str.inj (Option.some.inj h)) (by decide)⟩

/-- C10 (amended): every operation-adding method of the batch type declares
a single shared mutable default options dict (`callOpMethod`'s
`methodDefault` state) and merges the caller's keyword arguments into it in
place; consequently, for any two calls to the same method — on the same or
different batch instances — that omit the options positional argument, the
options stored by the second call contain every keyword key/value passed to
the first call *whose key the second call does not itself pass* (a key
passed again takes the second call's value), so calls with only keyword
arguments are not independent of prior calls. -/
theorem c10_amended (kind : String) (d0 kw1 kw2 : Dict) (c1 c2 : Channel)
    (hnd : (kw1.map Prod.fst).Nodup) :
    ∀ p ∈ kw1, p.1 ∉ kw2.map Prod.fst →
      dictGet (callOpMethod kind
          (callOpMethod kind d0 none kw1 c1).1 none kw2 c2).2.1 p.1
        = some p.2 := by
  intro p hp hnotin
  show dictGet (dictUpdate (dictUpdate d0 kw1) kw2) p.1 = some p.2
  rw [dictGet_dictUpdate_of_notMem _ _ _ hnotin,
    dictGet_dictUpdate_of_mem _ _ _ hnd hp]

/-- C10 (witness for the amended claim): two `dispatch_event` calls with
only keyword arguments on different batches; the second call's stored
options still carry the first call's `a = "1"`. -/
theorem c10_amended_witness :
    dictGet (callOpMethod "dispatch_event"
        (callOpMethod "dispatch_event" [] none [("a", .str "1")]
          (Channel.init "G" "I")).1
        none [("b", .str "2")] (Channel.init "G2" "I2")).2.1 "a"
      = some (.str "1") :=
  c10_amended "dispatch_event" [] [("a", .str "1")] [("b", .str "2")]
    (Channel.init "G" "I") (Channel.init "G2" "I2") (by decide)
    ("a", .str "1") (List.mem_singleton.mpr rfl) (by decide)

/-! ## C3: the empty morph -/

/-- C3 (the code at the claim's input): for every invocation context,
calling `Reflex.morph` with no selector, no html and no template queues
exactly one `dispatch_event` operation and zero `morph` operations — but
the dispatched event's name is `"emptymorph"`, not the `"empty_morph"`
stated by the claim and by the source's own comment. -/
theorem c3_empty_morph (channelName identifier : String) (reflexId : JVal)
    (url : String) (permAttrName : JVal) (renderedTemplate : String)
    (settingsDebug settingsDebugHtmlValidation : Bool)
    (validates : String → Bool) (selectAll : Bool) :
    (Reflex.morph channelName identifier reflexId url permAttrName
        "" none "" renderedTemplate settingsDebug settingsDebugHtmlValidation
        validates selectAll).2.1.opsOf "dispatch_event"
      = [[("name", .str "emptymorph"),
          ("detail", .obj [("stimulus_reflex",
              .obj [("reflexId", reflexId), ("url", .str url)])])]]
    ∧ (Reflex.morph channelName identifier reflexId url permAttrName
        "" none "" renderedTemplate settingsDebug settingsDebugHtmlValidation
        validates selectAll).2.1.opsOf "morph" = []
    ∧ ("emptymorph" : String) ≠ "empty_morph" :=
  ⟨rfl, rfl, by decide⟩

/-! ## C2: publish empties the batch and omits empty kinds -/

theorem kindList_nodup : kindList.Nodup := by decide

theorem camelcase_injOn :
    ∀ x ∈ kindList, ∀ y ∈ kindList, camelcase x = camelcase y → x = y := by
  have h : (kindList.map camelcase).Nodup := by decide
  intro x hx y hy hxy
  exact List.inj_on_of_nodup_map h hx hy hxy

theorem find?_eq_of_mem_of_nodup_keys {β : Type} (l : List (String × β))
    (q : String × β) (hnd : (l.map Prod.fst).Nodup) (hq : q ∈ l) :
    l.find? (fun p => p.1 = q.1) = some q := by
  induction l with
  | nil => cases hq
  | cons a rest ih =>
      simp only [List.map_cons, List.nodup_cons] at hnd
      rcases List.mem_cons.mp hq with h | h
      · subst h
        simp [List.find?_cons]
      · have hne : ¬ a.1 = q.1 := by
          intro e
          exact hnd.1 (e ▸ (List.mem_map.mpr ⟨q, h, rfl⟩))
        simp [List.find?_cons, hne, ih hnd.2 h]

theorem opsOf_eq_of_mem (c : Channel) (q : String × List Dict)
    (hwf : ChannelWF c) (hq : q ∈ c.operations) :
    c.opsOf q.1 = q.2 := by
  unfold Channel.opsOf
  rw [find?_eq_of_mem_of_nodup_keys c.operations q (hwf ▸ kindList_nodup) hq]

theorem wireOps_lookup_iff (c : Channel) (hwf : ChannelWF c) (kind : String)
    (hk : kind ∈ kindList) :
    ((wireOperations c).find? (fun p => p.1 = camelcase kind)).isSome
      ↔ c.opsOf kind ≠ [] := by
  rw [Option.isSome_iff_exists]
  constructor
  · rintro ⟨x, hx⟩
    have hpred := List.find?_some hx
    have hmem := List.mem_of_find?_eq_some hx
    simp only [wireOperations, List.mem_map, List.mem_filter] at hmem
    obtain ⟨q, ⟨hqmem, hqne⟩, hqx⟩ := hmem
    have hq1 : camelcase q.1 = camelcase kind := by
      have : x.1 = camelcase kind := by simpa using hpred
      rw [← hqx] at this
      simpa using this
    have hq1' : q.1 = kind := by
      refine camelcase_injOn q.1 ?_ kind hk hq1
      rw [← hwf]
      exact List.mem_map.mpr ⟨q, hqmem, rfl⟩
    have : c.opsOf kind = q.2 := hq1' ▸ opsOf_eq_of_mem c q hwf hqmem
    rw [this]
    simpa [List.isEmpty_iff] using hqne
  · intro hne
    have hfind : ∃ q, c.operations.find? (fun p => p.1 = kind) = some q := by
      unfold Channel.opsOf at hne
      rcases hf : c.operations.find? (fun p => p.1 = kind) with _ | q
      · rw [hf] at hne; exact absurd rfl hne
      · exact ⟨q, hf⟩
    obtain ⟨q, hq⟩ := hfind
    have hqmem := List.mem_of_find?_eq_some hq
    have hq1 : q.1 = kind := by simpa using List.find?_some hq
    have hq2 : q.2 ≠ [] := by
      unfold Channel.opsOf at hne
      rw [hq] at hne
      exact hne
    subst hq1
    refine ⟨(camelcase q.1, camelizeValue (.arr (q.2.map JVal.obj))), ?_⟩
    have hmem : (camelcase q.1, camelizeValue (.arr (q.2.map JVal.obj)))
        ∈ wireOperations c := by
      unfold wireOperations
      refine List.mem_map.mpr ⟨q, List.mem_filter.mpr ⟨hqmem, ?_⟩, rfl⟩
      simpa [List.isEmpty_iff] using hq2
    have hnd : ((wireOperations c).map Prod.fst).Nodup := by
      unfold wireOperations
      rw [List.map_map]
      have heq1 : (Prod.fst ∘ fun p : String × List Dict =>
          (camelcase p.1, camelizeValue (.arr (p.2.map JVal.obj))))
          = fun p => camelcase p.1 := rfl
      rw [heq1]
      have hsub : List.Sublist
          ((c.operations.filter (fun p => !p.2.isEmpty)).map
            (fun p => camelcase p.1))
          (c.operations.map (fun p => camelcase p.1)) :=
        (List.filter_sublist _).map _
      have hall : (c.operations.map (fun p => camelcase p.1)).Nodup := by
        have heq2 : c.operations.map (fun p => camelcase p.1)
            = (c.operations.map Prod.fst).map camelcase := by
          rw [List.map_map]; rfl
        rw [heq2, hwf]
        exact (by decide : (kindList.map camelcase).Nodup)
      exact List.Nodup.sublist hsub hall
    exact find?_eq_of_mem_of_nodup_keys (β := JVal) (wireOperations c)
      (camelcase q.1, camelizeValue (.arr (q.2.map JVal.obj))) hnd hmem

theorem opsOf_clear (c : Channel) (kind : String) :
    (Channel.clear c).opsOf kind = [] := by
  unfold Channel.clear Channel.opsOf
  rcases hf : List.find? (fun p => p.1 = kind) stub with _ | q
  · simp [hf]
  · have hq := List.mem_of_find?_eq_some hf
    have : q.2 = [] := by
      simp only [stub, List.mem_map] at hq
      obtain ⟨k, _, hk⟩ := hq
      rw [← hk]
    simp [hf, this]

theorem msgOperations_buildMessage (idf : String) (ops : List (String × JVal)) :
    msgOperations (buildMessage idf ops) = ops := rfl

/-- C2 (confirmed): for every batch (of the shape the source ever builds)
and every destination form, if `publish()` returns then every kind's
operation sequence in the resulting batch is empty, and each published
message's operations payload has a key for a kind exactly when that kind
had at least one queued operation (a kind with zero operations is omitted,
never sent as an empty sequence). -/
theorem c2_publish_empties_and_omits_empty_kinds (c : Channel)
    (sends : List Send) (c' : Channel) (hwf : ChannelWF c)
    (h : c.broadcast = some (sends, c')) :
    (∀ kind, c'.opsOf kind = []) ∧
    ∀ s ∈ sends, ∀ kind ∈ kindList,
      (((msgOperations s.message).find? (fun p => p.1 = camelcase kind)).isSome
        ↔ c.opsOf kind ≠ []) := by
  unfold Channel.broadcast at h
  by_cases hc : pyContains c.name "specific." = true
  · rw [hc] at h
    simp only [if_true] at h
    rcases hs : pySplit '!' c.name with _ | ⟨a, _ | ⟨grp, rest⟩⟩ <;> rw [hs] at h
    · cases h
    · cases h
    · have hsends : sends = [⟨.direct, c.name, buildMessage c.identifier (wireOperations c)⟩,
          ⟨.group, grp, buildMessage ("\x7b\"channel\":\"" ++ grp ++ "\"\x7d") (wireOperations c)⟩]
          ∧ c' = c.clear := by
        have := Option.some.inj h
        exact ⟨(Prod.mk.inj this).1.symm, (Prod.mk.inj this).2.symm⟩
      obtain ⟨h1, h2⟩ := hsends
      subst h1 h2
      refine ⟨opsOf_clear c, ?_⟩
      intro s hsmem kind hk
      rcases List.mem_cons.mp hsmem with rfl | hsmem
      · rw [msgOperations_buildMessage]
        exact wireOps_lookup_iff c hwf kind hk
      · rcases List.mem_cons.mp hsmem with rfl | hsmem
        · rw [msgOperations_buildMessage]
          exact wireOps_lookup_iff c hwf kind hk
        · cases hsmem
  · rw [Bool.not_eq_true] at hc
    rw [hc] at h
    simp only [Bool.false_eq_true, if_false] at h
    have := Option.some.inj h
    have h1 : sends = [⟨.group, c.name, buildMessage c.identifier (wireOperations c)⟩] :=
      (Prod.mk.inj this).1.symm
    have h2 : c' = c.clear := (Prod.mk.inj this).2.symm
    subst h1 h2
    refine ⟨opsOf_clear c, ?_⟩
    intro s hsmem kind hk
    rcases List.mem_cons.mp hsmem with rfl | hsmem
    · rw [msgOperations_buildMessage]
      exact wireOps_lookup_iff c hwf kind hk
    · cases hsmem

/-- C2 (witness): a concrete batch on group destination `"G"` with one
queued `morph` operation; its publish leaves the batch empty and its
single message carries a `morph` key but no `data` key. -/
theorem c2_witness :
    (Channel.clear c2ch).opsOf "dispatch_event" = []
    ∧ (((msgOperations (buildMessage "I" (wireOperations c2ch))).find?
          (fun p => p.1 = camelcase "morph")).isSome ↔ c2ch.opsOf "morph" ≠ [])
    ∧ (((msgOperations (buildMessage "I" (wireOperations c2ch))).find?
          (fun p => p.1 = camelcase "data")).isSome ↔ c2ch.opsOf "data" ≠ []) := by
  obtain ⟨h1, h2⟩ := c2_publish_empties_and_omits_empty_kinds c2ch
    [Send.mk .group "G" (buildMessage "I" (wireOperations c2ch))]
    (Channel.clear c2ch) (by unfold ChannelWF c2ch; decide) rfl
  exact ⟨h1 "dispatch_event",
    h2 _ (List.mem_singleton.mpr rfl) "morph" (by decide),
    h2 _ (List.mem_singleton.mpr rfl) "data" (by decide)⟩

/-! ## C1: the composite destination dual publish -/

theorem splitAux_of_not_mem (sep : Char) (l acc : List Char) (h : sep ∉ l) :
    splitAux sep l acc = [acc.reverse ++ l] := by
  induction l generalizing acc with
  | nil => simp [splitAux]
  | cons c cs ih =>
      simp only [List.mem_cons, not_or] at h
      rw [splitAux, if_neg (fun e => h.1 e.symm), ih _ h.2]
      simp

theorem splitAux_append (sep : Char) (l1 l2 acc : List Char) (h : sep ∉ l1) :
    splitAux sep (l1 ++ sep :: l2) acc
      = (acc.reverse ++ l1) :: splitAux sep l2 [] := by
  induction l1 generalizing acc with
  | nil => simp [splitAux]
  | cons c cs ih =>
      simp only [List.mem_cons, not_or] at h
      rw [List.cons_append, splitAux, if_neg (fun e => h.1 e.symm), ih _ h.2]
      simp

theorem pySplit_pair (sep : Char) (s : String) (l1 l2 : List Char)
    (hs : s.data = l1 ++ sep :: l2) (h1 : sep ∉ l1) (h2 : sep ∉ l2) :
    pySplit sep s = [String.mk l1, String.mk l2] := by
  unfold pySplit
  rw [hs, splitAux_append sep l1 l2 [] h1, splitAux_of_not_mem sep l2 [] h2]
  simp

theorem pyContains_of_prefix (s sub : String) (rest : List Char)
    (hs : s.data = sub.data ++ rest) :
    pyContains s sub = true := by
  unfold pyContains
  exact decide_eq_true ⟨[], rest, by simp [hs]⟩

/-- C1 (counterexample to the claim as stated): a batch on the composite
destination `"specific.cX!Room1"` publishes its direct message to the full
string `"specific.cX!Room1"`, not to the connection named `"cX"` — no
publish has destination `"cX"`. -/
theorem c1_counterexample :
    ((((Channel.init "specific.cX!Room1" "ID1").add_operation "dispatch_event"
        [("name", .str "e")]).broadcast).map
      (fun r => r.1.map (fun s => (s.kind, s.dest))))
      = some [(.direct, "specific.cX!Room1"), (.group, "Room1")]
    ∧ ("specific.cX!Room1" : String) ≠ "cX"
    ∧ ("Room1" : String) ≠ "cX" :=
  ⟨rfl, by decide, by decide⟩

/-- C1 (amended): for every batch whose destination has the composite form
`"specific.A!G"` (with `A` and `G` free of `"!"`) and identifier `I`,
`publish()` performs exactly two publishes: a direct publish to the *full
composite destination string* `"specific.A!G"` (the channel name that
addresses the single connection) carrying identifier `I`, and a group
publish to `G` carrying identifier `{"channel":"G"}` — both messages
carrying identical operation payloads (`wireOperations c`). -/
theorem c1_composite_dual_publish (A G I : String) (c : Channel)
    (hA : '!' ∉ A.data) (hG : '!' ∉ G.data)
    (hname : c.name = "specific." ++ A ++ "!" ++ G) (hid : c.identifier = I) :
    c.broadcast = some
      ([⟨.direct, "specific." ++ A ++ "!" ++ G,
          buildMessage I (wireOperations c)⟩,
        ⟨.group, G,
          buildMessage ("\x7b\"channel\":\"" ++ G ++ "\"\x7d") (wireOperations c)⟩],
       c.clear) := by
  have hdata : c.name.data
      = ("specific." ++ A).data ++ '!' :: G.data := by
    rw [hname]
    simp [String.data_append, List.append_assoc]
  have hconts : pyContains c.name "specific." = true := by
    refine pyContains_of_prefix c.name "specific." (A.data ++ '!' :: G.data) ?_
    rw [hdata, String.data_append, List.append_assoc]
  have hnot1 : '!' ∉ ("specific." ++ A).data := by
    rw [String.data_append]
    exact List.not_mem_append (by decide) hA
  have hsplit : pySplit '!' c.name = ["specific." ++ A, G] := by
    have := pySplit_pair '!' c.name (("specific." ++ A).data) G.data hdata hnot1 hG
    simpa using this
  unfold Channel.broadcast
  rw [hconts, hsplit, hid, hname]
  simp

/-- C1 (witness): the amended dual-publish law at the concrete composite
destination `"specific.cX!Room1"` with identifier `"ID1"` and one queued
`morph` operation. -/
theorem c1_witness :
    ((Channel.init "specific.cX!Room1" "ID1").add_operation "morph"
        [("selector", .str "#a")]).broadcast = some
      ([⟨.direct, "specific." ++ "cX" ++ "!" ++ "Room1",
          buildMessage "ID1" (wireOperations
            ((Channel.init "specific.cX!Room1" "ID1").add_operation "morph"
              [("selector", .str "#a")]))⟩,
        ⟨.group, "Room1",
          buildMessage ("\x7b\"channel\":\"" ++ "Room1" ++ "\"\x7d") (wireOperations
            ((Channel.init "specific.cX!Room1" "ID1").add_operation "morph"
              [("selector", .str "#a")]))⟩],
       ((Channel.init "specific.cX!Room1" "ID1").add_operation "morph"
          [("selector", .str "#a")]).clear) :=
  c1_composite_dual_publish "cX" "Room1" "ID1"
    ((Channel.init "specific.cX!Room1" "ID1").add_operation "morph"
      [("selector", .str "#a")])
    (by decide) (by decide) (by decide) (by decide)

/-! ## C4: the automatic re-render -/

theorem find?_update_append (l : List (String × List Dict)) (k : String)
    (o : Dict) :
    (l.map (fun p => if p.1 = k then (p.1, p.2 ++ [o]) else p)).find?
        (fun p => p.1 = k)
      = (l.find? (fun p => p.1 = k)).map (fun p => (p.1, p.2 ++ [o])) := by
  induction l with
  | nil => rfl
  | cons a rest ih =>
      by_cases h : a.1 = k
      · simp [List.find?_cons, h]
      · simp [List.find?_cons, h, ih]

theorem opsOf_add_operation (c : Channel) (k : String) (o : Dict)
    (h : (c.operations.find? (fun p => p.1 = k)).isSome) :
    (c.add_operation k o).opsOf k = c.opsOf k ++ [o] := by
  unfold Channel.opsOf Channel.add_operation
  rw [find?_update_append]
  rcases hf : c.operations.find? (fun p => p.1 = k) with _ | q
  · rw [hf] at h; cases h
  · rw [hf]
    rfl

theorem find?_isSome_add_operation (c : Channel) (k : String) (o : Dict)
    (h : (c.operations.find? (fun p => p.1 = k)).isSome) :
    (((c.add_operation k o).operations).find? (fun p => p.1 = k)).isSome := by
  show ((c.operations.map (fun p => if p.1 = k then (p.1, p.2 ++ [o]) else p)).find?
      (fun p => p.1 = k)).isSome
  rw [find?_update_append]
  simpa using h

theorem foldl_morph_opsOf (selectors : List String) (c : Channel)
    (optFor : String → Dict)
    (h : (c.operations.find? (fun p => p.1 = "morph")).isSome) :
    (selectors.foldl (fun ch sel => ch.morph (optFor sel)) c).opsOf "morph"
      = c.opsOf "morph" ++ selectors.map optFor := by
  induction selectors generalizing c with
  | nil => simp
  | cons s rest ih =>
      show (rest.foldl (fun ch sel => ch.morph (optFor sel))
          (c.add_operation "morph" (dictUpdate (optFor s) []))).opsOf "morph" = _
      rw [ih (c.add_operation "morph" (dictUpdate (optFor s) []))
        (find?_isSome_add_operation c "morph" _ h),
        opsOf_add_operation c "morph" _ h]
      simp [dictUpdate]

theorem ChannelWF_add_operation (c : Channel) (k : String) (o : Dict)
    (hwf : ChannelWF c) : ChannelWF (c.add_operation k o) := by
  unfold ChannelWF Channel.add_operation at *
  rw [← hwf, List.map_map]
  refine List.map_congr_left ?_
  intro p hp
  by_cases h : p.1 = k <;> simp [h]

theorem ChannelWF_init (n i : String) : ChannelWF (Channel.init n i) := by
  show List.map Prod.fst stub = kindList
  decide

theorem ChannelWF_foldl_morph (selectors : List String) (c : Channel)
    (optFor : String → Dict) (hwf : ChannelWF c) :
    ChannelWF (selectors.foldl (fun ch sel => ch.morph (optFor sel)) c) := by
  induction selectors generalizing c with
  | nil => exact hwf
  | cons s rest ih =>
      exact ih (c.morph (optFor s)) (ChannelWF_add_operation c "morph" _ hwf)

theorem ChannelWF_morphChannel (channelName : String) (selectors : List String)
    (d : InboundData) (html : String) (fragmentOf : String → String → String)
    (pan : String) :
    ChannelWF (morphChannel channelName selectors d html fragmentOf pan) :=
  ChannelWF_foldl_morph selectors (Channel.init channelName d.identifier) _
    (ChannelWF_init channelName d.identifier)

theorem camelizeList_length (l : List JVal) :
    (camelizeList l).length = l.length := by
  induction l with
  | nil => rfl
  | cons v vs ih => simp [camelizeList, ih]

theorem morphChannel_opsOf (channelName : String) (selectors : List String)
    (d : InboundData) (html : String) (fragmentOf : String → String → String)
    (pan : String) :
    (morphChannel channelName selectors d html fragmentOf pan).opsOf "morph"
      = selectors.map (morphOptionsFor d html fragmentOf pan) := by
  unfold morphChannel
  rw [foldl_morph_opsOf selectors (Channel.init channelName d.identifier) _ rfl]
  have h0 : (Channel.init channelName d.identifier).opsOf "morph" = [] := rfl
  rw [h0, List.nil_append]

theorem wireOps_keys_nodup (c : Channel) (hwf : ChannelWF c) :
    ((wireOperations c).map Prod.fst).Nodup := by
  unfold wireOperations
  rw [List.map_map]
  have heq1 : (Prod.fst ∘ fun p : String × List Dict =>
      (camelcase p.1, camelizeValue (.arr (p.2.map JVal.obj))))
      = fun p => camelcase p.1 := rfl
  rw [heq1]
  have hsub : List.Sublist
      ((c.operations.filter (fun p => !p.2.isEmpty)).map
        (fun p => camelcase p.1))
      (c.operations.map (fun p => camelcase p.1)) :=
    (List.filter_sublist _).map _
  have hall : (c.operations.map (fun p => camelcase p.1)).Nodup := by
    have heq2 : c.operations.map (fun p => camelcase p.1)
        = (c.operations.map Prod.fst).map camelcase := by
      rw [List.map_map]; rfl
    rw [heq2, hwf]
    exact (by decide : (kindList.map camelcase).Nodup)
  exact List.Nodup.sublist hsub hall

theorem wireOps_find?_eq (c : Channel) (hwf : ChannelWF c) (kind : String)
    (hne : c.opsOf kind ≠ []) :
    (wireOperations c).find? (fun p => p.1 = camelcase kind)
      = some (camelcase kind, camelizeValue (.arr ((c.opsOf kind).map JVal.obj))) := by
  have hfind : ∃ q, c.operations.find? (fun p => p.1 = kind) = some q := by
    unfold Channel.opsOf at hne
    rcases hf : c.operations.find? (fun p => p.1 = kind) with _ | q
    · rw [hf] at hne; exact absurd rfl hne
    · exact ⟨q, hf⟩
  obtain ⟨q, hq⟩ := hfind
  have hqmem := List.mem_of_find?_eq_some hq
  have hq1 : q.1 = kind := by simpa using List.find?_some hq
  subst hq1
  have hops : c.opsOf q.1 = q.2 := by
    unfold Channel.opsOf
    rw [hq]
  rw [hops]
  have hq2 : q.2 ≠ [] := hops ▸ hne
  have hmem : (camelcase q.1, camelizeValue (.arr (q.2.map JVal.obj)))
      ∈ wireOperations c := by
    unfold wireOperations
    refine List.mem_map.mpr ⟨q, List.mem_filter.mpr ⟨hqmem, ?_⟩, rfl⟩
    simpa [List.isEmpty_iff] using hq2
  exact find?_eq_of_mem_of_nodup_keys (β := JVal) (wireOperations c)
    (camelcase q.1, camelizeValue (.arr (q.2.map JVal.obj)))
    (wireOps_keys_nodup c hwf) hmem

theorem broadcast_messages (c : Channel) (sends : List Send) (c' : Channel)
    (h : c.broadcast = some (sends, c')) :
    ∀ s ∈ sends, ∃ idf, s.message = buildMessage idf (wireOperations c) := by
  unfold Channel.broadcast at h
  by_cases hc : pyContains c.name "specific." = true
  · rw [hc] at h
    simp only [if_true] at h
    rcases hs : pySplit '!' c.name with _ | ⟨a, _ | ⟨grp, rest⟩⟩ <;> rw [hs] at h
    · cases h
    · cases h
    · have h1 := (Prod.mk.inj (Option.some.inj h)).1.symm
      subst h1
      intro s hsmem
      rcases List.mem_cons.mp hsmem with rfl | hsmem
      · exact ⟨c.identifier, rfl⟩
      · rcases List.mem_cons.mp hsmem with rfl | hsmem
        · exact ⟨"\x7b\"channel\":\"" ++ grp ++ "\"\x7d", rfl⟩
        · cases hsmem
  · rw [Bool.not_eq_true] at hc
    rw [hc] at h
    simp only [Bool.false_eq_true, if_false] at h
    have h1 := (Prod.mk.inj (Option.some.inj h)).1.symm
    subst h1
    intro s hsmem
    rcases List.mem_cons.mp hsmem with rfl | hsmem
    · exact ⟨c.identifier, rfl⟩
    · cases hsmem

theorem msgOpCount_morph (idf : String) (c : Channel) (hwf : ChannelWF c) :
    msgOpCount (buildMessage idf (wireOperations c)) "morph"
      = (c.opsOf "morph").length := by
  unfold msgOpCount
  rw [msgOperations_buildMessage]
  have hcm : camelcase "morph" = "morph" := by decide
  by_cases hne : c.opsOf "morph" = []
  · have : ¬ ((wireOperations c).find? (fun p => p.1 = camelcase "morph")).isSome := by
      rw [wireOps_lookup_iff c hwf "morph" (by decide)]
      simpa using hne
    rw [hcm] at this
    rw [Option.not_isSome_iff_eq_none.mp this, hne]
    rfl
  · have := wireOps_find?_eq c hwf "morph" hne
    rw [hcm] at this
    rw [this]
    show (camelizeList ((c.opsOf "morph").map JVal.obj)).length = _
    rw [camelizeList_length, List.length_map]

/-- C4 (counterexample to the claim as stated): a successful invocation
whose handler did not call `morph()` but whose page renderer returns the
empty string yields zero automatic re-render publishes, although one
selector (`"#count"`) was requested — the claim demands exactly one `morph`
operation for it. -/
theorem c4_counterexample :
    render_page_and_broadcast_morph false (.ok "") "chan" ["#count"]
        exampleData (fun _ _ => "") = .ok []
    ∧ (["#count"] : List String).length = 1 :=
  ⟨rfl, rfl⟩

/-- C4 (amended): for every successful invocation, if the handler called
`morph()` manually (`is_morph` set), the Dispatcher performs zero automatic
re-render publishes — the renderer is not even consulted; if the handler
did not call `morph()` and the re-rendered markup is non-empty, the
automatic re-render fills exactly one batch with exactly one `morph`
operation per requested selector, in order, and every message published
from that batch carries exactly `selectors.length` morph operations.  (When
the renderer returns empty markup, nothing is published.) -/
theorem c4_rerender_morphs (channelName : String) (selectors : List String)
    (d : InboundData) (html : String) (fragmentOf : String → String → String)
    (pan : String) (renderResult : Except String String)
    (hpan : resolvePan d = some pan) :
    (render_page_and_broadcast_morph true renderResult channelName selectors d
        fragmentOf = .ok [])
    ∧ ((morphChannel channelName selectors d html fragmentOf pan).opsOf "morph"
        = selectors.map (morphOptionsFor d html fragmentOf pan))
    ∧ (html ≠ "" → ∀ sends,
        broadcast_morphs channelName selectors d html fragmentOf = .ok sends →
          render_page_and_broadcast_morph false (.ok html) channelName selectors
              d fragmentOf = .ok sends
          ∧ ∀ s ∈ sends, msgOpCount s.message "morph" = selectors.length) := by
  refine ⟨rfl, morphChannel_opsOf channelName selectors d html fragmentOf pan, ?_⟩
  intro hhtml sends hbm
  constructor
  · show (if html = "" then Except.ok [] else
        broadcast_morphs channelName selectors d html fragmentOf) = .ok sends
    rw [if_neg hhtml]
    exact hbm
  · intro s hsmem
    unfold broadcast_morphs at hbm
    rw [hpan] at hbm
    have hbm' : (match
          (morphChannel channelName selectors d html fragmentOf pan).broadcast with
        | some (sends', _) => Except.ok sends'
        | none => (Except.error "IndexError: list index out of range" :
            Except String (List Send))) = Except.ok sends := hbm
    rcases hb : (morphChannel channelName selectors d html fragmentOf pan).broadcast
      with _ | ⟨sends', c'⟩ <;> rw [hb] at hbm'
    · cases hbm'
    · have hsends : sends' = sends := Except.ok.inj hbm'
      subst hsends
      obtain ⟨idf, hmsg⟩ := broadcast_messages _ _ _ hb s hsmem
      rw [hmsg, msgOpCount_morph idf _
        (ChannelWF_morphChannel channelName selectors d html fragmentOf pan),
        morphChannel_opsOf, List.length_map]

/-- C4 (witness): the amended re-render law at a concrete invocation — one
requested selector `"#count"`, non-empty markup: the manual-morph case
publishes nothing, and the automatic case queues one `morph` operation for
`"#count"` whose published message carries exactly one morph. -/
theorem c4_witness :
    (render_page_and_broadcast_morph true (.ok "<p>x</p>") "chan" ["#count"]
        exampleData (fun _ _ => "<i>1</i>") = .ok [])
    ∧ ((morphChannel "chan" ["#count"] exampleData "<p>x</p>"
          (fun _ _ => "<i>1</i>") "data-permanent").opsOf "morph"
        = [morphOptionsFor exampleData "<p>x</p>"
            (fun _ _ => "<i>1</i>") "data-permanent" "#count"])
    ∧ msgOpCount (buildMessage exampleData.identifier (wireOperations
        (morphChannel "chan" ["#count"] exampleData "<p>x</p>"
          (fun _ _ => "<i>1</i>") "data-permanent"))) "morph" = 1 := by
  obtain ⟨h1, h2, h3⟩ := c4_rerender_morphs "chan" ["#count"] exampleData
    "<p>x</p>" (fun _ _ => "<i>1</i>") "data-permanent" (.ok "<p>x</p>") rfl
  refine ⟨h1, h2, ?_⟩
  exact (h3 (by decide)
    [Send.mk .group "chan" (buildMessage exampleData.identifier (wireOperations
      (morphChannel "chan" ["#count"] exampleData "<p>x</p>"
        (fun _ _ => "<i>1</i>") "data-permanent")))] rfl).2
    _ (List.mem_singleton.mpr rfl)

/-! ## C5: the per-handler-per-day metric aggregates -/

theorem metricsStep_some_count (r : MetricRecord) (cpu wall : ℚ) :
    (metricsStep (some r) cpu wall).count = r.count + 1 := rfl

theorem metricsStep_some_wall_total (r : MetricRecord) (cpu wall : ℚ) :
    (metricsStep (some r) cpu wall).wall_time_total
      = r.wall_time_total + wall := rfl

theorem metricsStep_some_cpu_total (r : MetricRecord) (cpu wall : ℚ) :
    (metricsStep (some r) cpu wall).cpu_time_total
      = r.cpu_time_total + cpu := rfl

theorem metricsStep_some_wall_min (r : MetricRecord) (cpu wall m : ℚ)
    (h : r.wall_time_min = some m) :
    (metricsStep (some r) cpu wall).wall_time_min
      = some (if wall < m then wall else m) := by
  show (match r.wall_time_min with
    | some m => if wall < m then some wall else some m
    | none => some wall) = _
  rw [h]
  by_cases hlt : wall < m <;> simp [hlt]

theorem metricsStep_some_wall_max (r : MetricRecord) (cpu wall m : ℚ)
    (h : r.wall_time_max = some m) :
    (metricsStep (some r) cpu wall).wall_time_max
      = some (if wall > m then wall else m) := by
  show (match r.wall_time_max with
    | some m => if wall > m then some wall else some m
    | none => some wall) = _
  rw [h]
  by_cases hlt : wall > m <;> simp [hlt]

theorem metricsStep_some_cpu_min (r : MetricRecord) (cpu wall m : ℚ)
    (h : r.cpu_time_min = some m) :
    (metricsStep (some r) cpu wall).cpu_time_min
      = some (if cpu < m then cpu else m) := by
  show (match r.cpu_time_min with
    | some m => if cpu < m then some cpu else some m
    | none => some cpu) = _
  rw [h]
  by_cases hlt : cpu < m <;> simp [hlt]

theorem metricsStep_some_cpu_max (r : MetricRecord) (cpu wall m : ℚ)
    (h : r.cpu_time_max = some m) :
    (metricsStep (some r) cpu wall).cpu_time_max
      = some (if cpu > m then cpu else m) := by
  show (match r.cpu_time_max with
    | some m => if cpu > m then some cpu else some m
    | none => some cpu) = _
  rw [h]
  by_cases hlt : cpu > m <;> simp [hlt]

theorem metricsRun_apply (store : MetricStore) (name date : String)
    (samples : List (ℚ × ℚ)) :
    metricsRun store name date samples (metricsKey name date)
      = samples.foldl (fun r? p => some (metricsStep r? p.1 p.2))
          (store (metricsKey name date)) := by
  induction samples generalizing store with
  | nil => rfl
  | cons p rest ih =>
      show metricsRun (metricsUpdate store name date p.1 p.2) name date rest
          (metricsKey name date) = _
      rw [ih (metricsUpdate store name date p.1 p.2)]
      have : metricsUpdate store name date p.1 p.2 (metricsKey name date)
          = some (metricsStep (store (metricsKey name date)) p.1 p.2) := by
        unfold metricsUpdate
        rw [if_pos rfl]
      rw [this]
      rfl

theorem foldl_metricsStep_some (samples : List (ℚ × ℚ)) (r : MetricRecord) :
    samples.foldl (fun r? p => some (metricsStep r? p.1 p.2)) (some r)
      = some (samples.foldl (fun rec p => metricsStep (some rec) p.1 p.2) r) := by
  induction samples generalizing r with
  | nil => rfl
  | cons p rest ih => exact ih (metricsStep (some r) p.1 p.2)

theorem runFrom_count (samples : List (ℚ × ℚ)) (r : MetricRecord) :
    (samples.foldl (fun rec p => metricsStep (some rec) p.1 p.2) r).count
      = r.count + samples.length := by
  induction samples generalizing r with
  | nil => rfl
  | cons p rest ih =>
      show (rest.foldl _ (metricsStep (some r) p.1 p.2)).count = _
      rw [ih, metricsStep_some_count]
      simp [Nat.add_assoc, Nat.add_comm 1 rest.length]

theorem runFrom_wall_total (samples : List (ℚ × ℚ)) (r : MetricRecord) :
    (samples.foldl (fun rec p => metricsStep (some rec) p.1 p.2)
        r).wall_time_total
      = r.wall_time_total + (samples.map (fun p => p.2)).sum := by
  induction samples generalizing r with
  | nil => simp
  | cons p rest ih =>
      show (rest.foldl _ (metricsStep (some r) p.1 p.2)).wall_time_total = _
      rw [ih, metricsStep_some_wall_total]
      simp [add_assoc]

theorem runFrom_cpu_total (samples : List (ℚ × ℚ)) (r : MetricRecord) :
    (samples.foldl (fun rec p => metricsStep (some rec) p.1 p.2)
        r).cpu_time_total
      = r.cpu_time_total + (samples.map (fun p => p.1)).sum := by
  induction samples generalizing r with
  | nil => simp
  | cons p rest ih =>
      show (rest.foldl _ (metricsStep (some r) p.1 p.2)).cpu_time_total = _
      rw [ih, metricsStep_some_cpu_total]
      simp [add_assoc]

theorem runFrom_wall_min (samples : List (ℚ × ℚ)) (r : MetricRecord) (m : ℚ)
    (h : r.wall_time_min = some m) :
    (samples.foldl (fun rec p => metricsStep (some rec) p.1 p.2)
        r).wall_time_min
      = some (samples.foldl (fun acc p => min acc p.2) m) := by
  induction samples generalizing r m with
  | nil => exact h
  | cons p rest ih =>
      show (rest.foldl _ (metricsStep (some r) p.1 p.2)).wall_time_min = _
      have hstep : (metricsStep (some r) p.1 p.2).wall_time_min
          = some (min m p.2) := by
        rw [metricsStep_some_wall_min r p.1 p.2 m h]
        by_cases hlt : p.2 < m
        · rw [if_pos hlt, min_eq_right hlt.le]
        · rw [if_neg hlt, min_eq_left (not_lt.mp hlt)]
      exact ih _ _ hstep

theorem runFrom_wall_max (samples : List (ℚ × ℚ)) (r : MetricRecord) (m : ℚ)
    (h : r.wall_time_max = some m) :
    (samples.foldl (fun rec p => metricsStep (some rec) p.1 p.2)
        r).wall_time_max
      = some (samples.foldl (fun acc p => max acc p.2) m) := by
  induction samples generalizing r m with
  | nil => exact h
  | cons p rest ih =>
      show (rest.foldl _ (metricsStep (some r) p.1 p.2)).wall_time_max = _
      have hstep : (metricsStep (some r) p.1 p.2).wall_time_max
          = some (max m p.2) := by
        rw [metricsStep_some_wall_max r p.1 p.2 m h]
        by_cases hlt : p.2 > m
        · rw [if_pos hlt, max_eq_right hlt.le]
        · rw [if_neg hlt, max_eq_left (not_lt.mp hlt)]
      exact ih _ _ hstep

theorem runFrom_cpu_min (samples : List (ℚ × ℚ)) (r : MetricRecord) (m : ℚ)
    (h : r.cpu_time_min = some m) :
    (samples.foldl (fun rec p => metricsStep (some rec) p.1 p.2)
        r).cpu_time_min
      = some (samples.foldl (fun acc p => min acc p.1) m) := by
  induction samples generalizing r m with
  | nil => exact h
  | cons p rest ih =>
      show (rest.foldl _ (metricsStep (some r) p.1 p.2)).cpu_time_min = _
      have hstep : (metricsStep (some r) p.1 p.2).cpu_time_min
          = some (min m p.1) := by
        rw [metricsStep_some_cpu_min r p.1 p.2 m h]
        by_cases hlt : p.1 < m
        · rw [if_pos hlt, min_eq_right hlt.le]
        · rw [if_neg hlt, min_eq_left (not_lt.mp hlt)]
      exact ih _ _ hstep

theorem runFrom_cpu_max (samples : List (ℚ × ℚ)) (r : MetricRecord) (m : ℚ)
    (h : r.cpu_time_max = some m) :
    (samples.foldl (fun rec p => metricsStep (some rec) p.1 p.2)
        r).cpu_time_max
      = some (samples.foldl (fun acc p => max acc p.1) m) := by
  induction samples generalizing r m with
  | nil => exact h
  | cons p rest ih =>
      show (rest.foldl _ (metricsStep (some r) p.1 p.2)).cpu_time_max = _
      have hstep : (metricsStep (some r) p.1 p.2).cpu_time_max
          = some (max m p.1) := by
        rw [metricsStep_some_cpu_max r p.1 p.2 m h]
        by_cases hlt : p.1 > m
        · rw [if_pos hlt, max_eq_right hlt.le]
        · rw [if_neg hlt, max_eq_left (not_lt.mp hlt)]
      exact ih _ _ hstep

/-- C5 (confirmed): after `N ≥ 1` invocations of a handler on one day with
wall times `w1..wN` (and cpu times `c1..cN`), starting from no stored
record for that handler/day key, the stored record has `count = N`,
`wall_time_total = Σ wi`, `wall_time_min = min wi`, `wall_time_max = max
wi` (likewise for cpu), and each step updates a stored min (resp. max) only
to a strictly smaller (resp. strictly larger) sample — otherwise it keeps
the stored value — while an absent value is stored outright. -/
theorem c5_metric_aggregates (store : MetricStore) (name date : String)
    (samples : List (ℚ × ℚ))
    (h0 : store (metricsKey name date) = none) (hne : samples ≠ []) :
    (∃ r, metricsRun store name date samples (metricsKey name date) = some r
      ∧ r.count = samples.length
      ∧ r.wall_time_total = (samples.map (fun p => p.2)).sum
      ∧ r.wall_time_min = (samples.map (fun p => p.2)).min?
      ∧ r.wall_time_max = (samples.map (fun p => p.2)).max?
      ∧ r.cpu_time_total = (samples.map (fun p => p.1)).sum
      ∧ r.cpu_time_min = (samples.map (fun p => p.1)).min?
      ∧ r.cpu_time_max = (samples.map (fun p => p.1)).max?)
    ∧ (∀ rec cpu wall m, rec.wall_time_min = some m →
        (metricsStep (some rec) cpu wall).wall_time_min
          = some (if wall < m then wall else m))
    ∧ (∀ rec cpu wall m, rec.wall_time_max = some m →
        (metricsStep (some rec) cpu wall).wall_time_max
          = some (if wall > m then wall else m))
    ∧ (∀ cpu wall, (metricsStep none cpu wall).wall_time_min = some wall
        ∧ (metricsStep none cpu wall).wall_time_max = some wall) := by
  refine ⟨?_, metricsStep_some_wall_min, metricsStep_some_wall_max,
    fun cpu wall => ⟨rfl, rfl⟩⟩
  rcases samples with _ | ⟨p0, rest⟩
  · exact absurd rfl hne
  have hred : metricsRun store name date (p0 :: rest) (metricsKey name date)
      = some (rest.foldl (fun rec p => metricsStep (some rec) p.1 p.2)
          (metricsStep none p0.1 p0.2)) := by
    rw [metricsRun_apply, h0]
    show List.foldl (fun r? p => some (metricsStep r? p.1 p.2))
        (some (metricsStep none p0.1 p0.2)) rest = _
    exact foldl_metricsStep_some rest _
  refine ⟨rest.foldl (fun rec p => metricsStep (some rec) p.1 p.2)
      (metricsStep none p0.1 p0.2), hred, ?_, ?_, ?_, ?_, ?_, ?_, ?_⟩
  · rw [runFrom_count]
    show 1 + rest.length = rest.length + 1
    rw [Nat.add_comm]
  · rw [runFrom_wall_total]
    have h1 : (metricsStep none p0.1 p0.2).wall_time_total = p0.2 := by
      show (0 : ℚ) + p0.2 = p0.2
      rw [zero_add]
    rw [h1, List.map_cons, List.sum_cons]
  · rw [runFrom_wall_min rest _ p0.2 rfl]
    show _ = (p0.2 :: rest.map (fun p => p.2)).min?
    show some (rest.foldl (fun acc p => min acc p.2) p0.2)
      = some ((rest.map (fun p => p.2)).foldl min p0.2)
    rw [List.foldl_map]
  · rw [runFrom_wall_max rest _ p0.2 rfl]
    show _ = (p0.2 :: rest.map (fun p => p.2)).max?
    show some (rest.foldl (fun acc p => max acc p.2) p0.2)
      = some ((rest.map (fun p => p.2)).foldl max p0.2)
    rw [List.foldl_map]
  · rw [runFrom_cpu_total]
    have h1 : (metricsStep none p0.1 p0.2).cpu_time_total = p0.1 := by
      show (0 : ℚ) + p0.1 = p0.1
      rw [zero_add]
    rw [h1, List.map_cons, List.sum_cons]
  · rw [runFrom_cpu_min rest _ p0.1 rfl]
    show _ = (p0.1 :: rest.map (fun p => p.1)).min?
    show some (rest.foldl (fun acc p => min acc p.1) p0.1)
      = some ((rest.map (fun p => p.1)).foldl min p0.1)
    rw [List.foldl_map]
  · rw [runFrom_cpu_max rest _ p0.1 rfl]
    show _ = (p0.1 :: rest.map (fun p => p.1)).max?
    show some (rest.foldl (fun acc p => max acc p.1) p0.1)
      = some ((rest.map (fun p => p.1)).foldl max p0.1)
    rw [List.foldl_map]

/-- C5 (witness): two invocations of `"Counter#increment"` on day
`"2026-10-12"` with (cpu, wall) samples `(1, 5)` and `(2, 3)`, starting
from an empty counter store: the stored record is `count = 2`,
`cpu_time_total = 3`, `wall_time_total = 8`, `wall_time_min = 3`,
`wall_time_max = 5`, `cpu_time_min = 1`, `cpu_time_max = 2`. -/
theorem c5_witness :
    metricsRun (fun _ => none) "Counter#increment" "2026-10-12"
        [((1 : Rat), (5 : Rat)), ((2 : Rat), (3 : Rat))]
        (metricsKey "Counter#increment" "2026-10-12")
      = some ⟨2, 3, 8, some 3, some 5, some 1, some 2⟩ := by
  obtain ⟨⟨r, h1, hc, hwt, hwmin, hwmax, hct, hcmin, hcmax⟩, _⟩ :=
    c5_metric_aggregates (fun _ => none) "Counter#increment" "2026-10-12"
      [((1 : Rat), (5 : Rat)), ((2 : Rat), (3 : Rat))] rfl (by simp)
  rw [h1]
  obtain ⟨c1, c2, c3, c4, c5x, c6x, c7⟩ := r
  simp only [Option.some.injEq, MetricRecord.mk.injEq]
  refine ⟨?_, ?_, ?_, ?_, ?_, ?_, ?_⟩
  · exact hc.trans rfl
  · exact hct.trans (by norm_num)
  · exact hwt.trans (by norm_num)
  · exact hwmin.trans (by decide)
  · exact hwmax.trans (by decide)
  · exact hcmin.trans (by decide)
  · exact hcmax.trans (by decide)

/-! ## C6: metrics failures are not isolated -/

/-- C6 (counterexample to the claim as stated): with a counter-store
connection that raises, the metrics bookkeeping error reaches the
invocation — `receive_json` raises, and because the first counter-store
call (the profiler-gating `hexists` read) runs before the dispatch, the
handler is never invoked at all, so the invocation does not "complete
exactly as it would without the metrics error". -/
theorem c6_counterexample :
    (receive_json_invocation true (fun _ => none) false false
        "Counter#increment" "2026-10-12" 1 5).raised = true
    ∧ (receive_json_invocation true (fun _ => none) false false
        "Counter#increment" "2026-10-12" 1 5).handlerInvoked = false :=
  ⟨rfl, rfl⟩

/-- C6 (amended): errors in the metrics bookkeeping of `receive_json` are
not isolated — there is no `try`/`except` around it.  When the counter
store raises, the exception propagates out of `receive_json` and, since the
profiler-gating reads precede the dispatch, the handler is never invoked
and the store is left untouched; only when the counter-store calls succeed
does the invocation run, followed by the day-record update. -/
theorem c6_metrics_not_isolated (store : MetricStore)
    (profListed profGlobal : Bool) (name date : String) (cpu wall : ℚ) :
    ((receive_json_invocation true store profListed profGlobal
          name date cpu wall).raised = true
      ∧ (receive_json_invocation true store profListed profGlobal
          name date cpu wall).handlerInvoked = false
      ∧ (receive_json_invocation true store profListed profGlobal
          name date cpu wall).store = store)
    ∧ ((receive_json_invocation false store profListed profGlobal
          name date cpu wall).raised = false
      ∧ (receive_json_invocation false store profListed profGlobal
          name date cpu wall).handlerInvoked = true
      ∧ (receive_json_invocation false store profListed profGlobal
          name date cpu wall).store
          = metricsUpdate store name date cpu wall) :=
  ⟨⟨rfl, rfl, rfl⟩, ⟨rfl, rfl, rfl⟩⟩

/-! ## C7 and C8: malformed targets and missing handlers -/

theorem isEmpty_false_of_ne_nil {α : Type} (l : List α) (h : l ≠ []) :
    l.isEmpty = false := by
  cases l with
  | nil => exact absurd rfl h
  | cons a rest => rfl

theorem splitTarget_eq_none (target : String)
    (h : (pySplit '#' target).length ≠ 2) : splitTarget target = none := by
  unfold splitTarget
  rcases hsp : pySplit '#' target with _ | ⟨a, _ | ⟨b, _ | ⟨c, l⟩⟩⟩
  · rfl
  · rfl
  · rw [hsp] at h
    exact absurd rfl h
  · rfl

theorem splitTarget_eq_some (target cls m : String)
    (h : pySplit '#' target = [cls, m]) : splitTarget target = some (cls, m) := by
  unfold splitTarget
  rw [h]

theorem reflex_message_eval_split_failure
    (registry : List (String × HandlerSpec)) (sk cn : String)
    (rr : Except String String) (frag : String → String → String)
    (d : InboundData) (hreg : registry ≠ [])
    (hlen : (pySplit '#' d.target).length ≠ 2) :
    reflex_message registry sk cn rr frag d
      = [.logWarning (splitWarning d.target),
         .errorBroadcast (invokeFailedMsg d.target d.url
           "NameError: name reflex_class_name is not defined"),
         .logException (invokeFailedMsg d.target d.url
           "NameError: name reflex_class_name is not defined")] := by
  have hre := isEmpty_false_of_ne_nil registry hreg
  have hsp := splitTarget_eq_none d.target hlen
  simp [reflex_message, hsp, hre]

theorem reflex_message_eval_missing_class
    (registry : List (String × HandlerSpec)) (sk cn : String)
    (rr : Except String String) (frag : String → String → String)
    (d : InboundData) (cls m : String) (hreg : registry ≠ [])
    (hsplit : pySplit '#' d.target = [cls, m])
    (hmissing : registry.find? (fun p => p.1 = cls) = none) :
    reflex_message registry sk cn rr frag d
      = [.errorBroadcast (missingClassMsg cls),
         .logException (missingClassMsg cls)] := by
  have hre := isEmpty_false_of_ne_nil registry hreg
  have hsp := splitTarget_eq_some d.target cls m hsplit
  simp [reflex_message, hsp, hre, hmissing]

theorem invoked_mem_reflex_message
    (registry : List (String × HandlerSpec)) (sk cn : String)
    (rr : Except String String) (frag : String → String → String)
    (d2 : InboundData) (cls m : String) (entry : String × HandlerSpec)
    (hreg : registry ≠ [])
    (hsplit2 : pySplit '#' d2.target = [cls, m])
    (hfind : registry.find? (fun p => p.1 = cls) = some entry)
    (hm : m ∈ entry.2.methods) :
    Event.invoked cls m ∈ reflex_message registry sk cn rr frag d2 := by
  have hre := isEmpty_false_of_ne_nil registry hreg
  have hsp := splitTarget_eq_some d2.target cls m hsplit2
  obtain ⟨a, spec⟩ := entry
  simp only [reflex_message, hsp, hre, hfind]
  simp only [hm, if_true, Bool.false_eq_true, if_false]
  rcases hr : spec.raises with _ | ⟨excCls, excMsg⟩
  · rcases hrr : render_page_and_broadcast_morph spec.callsMorph rr cn
        (if d2.selectors = [] then ["body"] else d2.selectors) d2 frag
      with e | sends
    · simp
    · by_cases hse : sends.isEmpty <;> simp [hse]
  · by_cases hexc : excCls = "TypeError" <;> simp [hexc]

theorem processMessages_cons (registry : List (String × HandlerSpec))
    (sk cn : String) (frag : String → String → String) (d : InboundData)
    (r : Except String String)
    (rest : List (InboundData × Except String String)) :
    processMessages registry sk cn frag ((d, r) :: rest)
      = reflex_message registry sk cn r frag d
          ++ processMessages registry sk cn frag rest := rfl

/-- C7 (confirmed): for an inbound invocation whose `target` cannot be
split into `"HandlerName#methodName"` (no `#`, or wrong arity), the
Dispatcher logs the split failure and aborts that message: no handler is
invoked, the connection is not torn down — subsequent messages are
processed, and a subsequent valid invocation reaches its handler.  (On the
way out, the unbound-name failure at the registry lookup is caught by the
generic exception handler, which also emits one error broadcast.) -/
theorem c7_split_failure_aborts_message_only
    (registry : List (String × HandlerSpec)) (sk cn : String)
    (rr : Except String String) (frag : String → String → String)
    (d : InboundData) (hreg : registry ≠ [])
    (hlen : (pySplit '#' d.target).length ≠ 2) :
    (reflex_message registry sk cn rr frag d
      = [.logWarning (splitWarning d.target),
         .errorBroadcast (invokeFailedMsg d.target d.url
           "NameError: name reflex_class_name is not defined"),
         .logException (invokeFailedMsg d.target d.url
           "NameError: name reflex_class_name is not defined")])
    ∧ (∀ cls m, Event.invoked cls m ∉ reflex_message registry sk cn rr frag d)
    ∧ (∀ rest, processMessages registry sk cn frag ((d, rr) :: rest)
        = reflex_message registry sk cn rr frag d
            ++ processMessages registry sk cn frag rest)
    ∧ (∀ (d2 : InboundData) (r2 : Except String String) (cls m : String)
        (entry : String × HandlerSpec),
        pySplit '#' d2.target = [cls, m] →
        registry.find? (fun p => p.1 = cls) = some entry →
        m ∈ entry.2.methods →
        Event.invoked cls m
          ∈ processMessages registry sk cn frag [(d, rr), (d2, r2)]) := by
  have heval := reflex_message_eval_split_failure registry sk cn rr frag d
    hreg hlen
  refine ⟨heval, ?_, fun rest => rfl, ?_⟩
  · intro cls m
    rw [heval]
    simp
  · intro d2 r2 cls m entry h1 h2 h3
    show Event.invoked cls m ∈ reflex_message registry sk cn rr frag d
      ++ (reflex_message registry sk cn r2 frag d2 ++ [])
    refine List.mem_append.mpr (Or.inr (List.mem_append.mpr (Or.inl ?_)))
    exact invoked_mem_reflex_message registry sk cn r2 frag d2 cls m entry
      hreg h1 h2 h3

/-- C7 (witness): the split-failure law at the concrete malformed target
`"CounterIncrement"`, followed by a valid `"Counter#increment"`
invocation on the same connection. -/
theorem c7_witness :
    (reflex_message exampleRegistry "sess1" "chan" (.ok "") (fun _ _ => "")
        exampleDataNoHash
      = [.logWarning (splitWarning "CounterIncrement"),
         .errorBroadcast (invokeFailedMsg "CounterIncrement" "http://h/x"
           "NameError: name reflex_class_name is not defined"),
         .logException (invokeFailedMsg "CounterIncrement" "http://h/x"
           "NameError: name reflex_class_name is not defined")])
    ∧ Event.invoked "Counter" "increment"
        ∉ reflex_message exampleRegistry "sess1" "chan" (.ok "")
            (fun _ _ => "") exampleDataNoHash
    ∧ Event.invoked "Counter" "increment"
        ∈ processMessages exampleRegistry "sess1" "chan" (fun _ _ => "")
            [(exampleDataNoHash, .ok ""), (exampleData, .ok "")] := by
  obtain ⟨h1, h2, h3, h4⟩ := c7_split_failure_aborts_message_only
    exampleRegistry "sess1" "chan" (.ok "") (fun _ _ => "") exampleDataNoHash
    (by simp [exampleRegistry]) (by decide)
  exact ⟨h1, h2 "Counter" "increment",
    h4 exampleData (.ok "") "Counter" "increment" ("Counter", counterSpec)
      (by decide) rfl (by decide)⟩

/-- C8 (confirmed): for an invocation whose handler name is not in the
registry, the Dispatcher produces exactly one error broadcast — whose body
names the missing handler class — queues it as a single `dispatch_event`
operation carrying `{subject: "error", body}`, and the connection remains
able to process a subsequent valid invocation, which reaches its
handler. -/
theorem c8_missing_handler (registry : List (String × HandlerSpec))
    (sk cn : String) (rr : Except String String)
    (frag : String → String → String) (d : InboundData) (cls m : String)
    (hreg : registry ≠ [])
    (hsplit : pySplit '#' d.target = [cls, m])
    (hmissing : registry.find? (fun p => p.1 = cls) = none) :
    (reflex_message registry sk cn rr frag d
      = [.errorBroadcast (missingClassMsg cls),
         .logException (missingClassMsg cls)])
    ∧ errorBroadcastCount (reflex_message registry sk cn rr frag d) = 1
    ∧ missingClassMsg cls
        = "Sockpuppet tried to find a reflex class called " ++ cls
            ++ ". Are you sure such a class exists?"
    ∧ (broadcast_error sk (missingClassMsg cls) d).1.opsOf "dispatch_event"
        = [[("name", .str "stimulus-reflex:server-message"),
            ("detail", .obj [("stimulus_reflex",
              errorEcho d (missingClassMsg cls))])]]
    ∧ (∀ (d2 : InboundData) (r2 : Except String String) (cls2 m2 : String)
        (entry : String × HandlerSpec),
        pySplit '#' d2.target = [cls2, m2] →
        registry.find? (fun p => p.1 = cls2) = some entry →
        m2 ∈ entry.2.methods →
        Event.invoked cls2 m2
          ∈ processMessages registry sk cn frag [(d, rr), (d2, r2)]) := by
  have heval := reflex_message_eval_missing_class registry sk cn rr frag d
    cls m hreg hsplit hmissing
  refine ⟨heval, ?_, ?_, rfl, ?_⟩
  · rw [heval]
    rfl
  · unfold missingClassMsg
    rw [String.append_assoc]
  · intro d2 r2 cls2 m2 entry h1 h2 h3
    show Event.invoked cls2 m2 ∈ reflex_message registry sk cn rr frag d
      ++ (reflex_message registry sk cn r2 frag d2 ++ [])
    refine List.mem_append.mpr (Or.inr (List.mem_append.mpr (Or.inl ?_)))
    exact invoked_mem_reflex_message registry sk cn r2 frag d2 cls2 m2 entry
      hreg h1 h2 h3

/-- C8 (witness): the missing-handler law at the concrete target
`"Nope#go"` against a registry holding only `Counter`, followed by a valid
`"Counter#increment"` invocation on the same connection. -/
theorem c8_witness :
    (reflex_message exampleRegistry "sess1" "chan" (.ok "") (fun _ _ => "")
        exampleDataMissing
      = [.errorBroadcast (missingClassMsg "Nope"),
         .logException (missingClassMsg "Nope")])
    ∧ errorBroadcastCount (reflex_message exampleRegistry "sess1" "chan"
        (.ok "") (fun _ _ => "") exampleDataMissing) = 1
    ∧ Event.invoked "Counter" "increment"
        ∈ processMessages exampleRegistry "sess1" "chan" (fun _ _ => "")
            [(exampleDataMissing, .ok ""), (exampleData, .ok "")] := by
  obtain ⟨h1, h2, h3, h4, h5⟩ := c8_missing_handler exampleRegistry "sess1"
    "chan" (.ok "") (fun _ _ => "") exampleDataMissing "Nope" "go"
    (by simp [exampleRegistry]) (by decide) rfl
  exact ⟨h1, h2,
    h5 exampleData (.ok "") "Counter" "increment" ("Counter", counterSpec)
      (by decide) rfl (by decide)⟩

/-! ## C9: disconnect clears all group memberships -/

theorem chan_notin_filter (l : List String) (chan : String) :
    chan ∉ l.filter (fun c => c ≠ chan) := by
  simp

theorem filter_ne_self (l : List String) (chan : String) (h : chan ∉ l) :
    l.filter (fun c => c ≠ chan) = l := by
  induction l with
  | nil => rfl
  | cons a rest ih =>
      simp only [List.mem_cons, not_or] at h
      rw [List.filter_cons]
      rw [if_pos (by simpa using Ne.symm h.1)]
      rw [ih h.2]

theorem discard_clean_preserve (L : GroupLayer) (g chan : String)
    (h : ∀ p ∈ L.groups, chan ∉ p.2) :
    ∀ p ∈ (group_discard L g chan).groups, chan ∉ p.2 := by
  intro p hp
  obtain ⟨q, hq, hfq⟩ := List.mem_map.mp hp
  by_cases h1 : q.1 = g
  · rw [← hfq, if_pos h1]
    exact chan_notin_filter q.2 chan
  · rw [← hfq, if_neg h1]
    exact h q hq

theorem foldl_discard_clean (ks : List String) (L : GroupLayer) (chan : String)
    (hinv : ∀ p ∈ L.groups, p.1 ∈ ks ∨ chan ∉ p.2) :
    ∀ p ∈ (ks.foldl (fun acc k => group_discard acc k chan) L).groups,
      chan ∉ p.2 := by
  induction ks generalizing L with
  | nil =>
      intro p hp
      rcases hinv p hp with h | h
      · cases h
      · exact h
  | cons k rest ih =>
      intro p hp
      refine ih (group_discard L k chan) ?_ p hp
      intro q hq
      obtain ⟨q0, hq0, hfq⟩ := List.mem_map.mp hq
      by_cases h1 : q0.1 = k
      · right
        rw [← hfq, if_pos h1]
        exact chan_notin_filter q0.2 chan
      · rcases hinv q0 hq0 with h2 | h2
        · rcases List.mem_cons.mp h2 with h3 | h3
          · exact absurd h3 h1
          · left
            rw [← hfq, if_neg h1]
            exact h3
        · right
          rw [← hfq, if_neg h1]
          exact h2

theorem disconnect_clean (L : GroupLayer) (sessionKey chan : String) :
    ∀ p ∈ (disconnect true sessionKey chan L).groups, chan ∉ p.2 := by
  show ∀ p ∈ (group_discard ((L.groups.map (fun p => p.1)).foldl
      (fun acc g => group_discard acc g chan) L) sessionKey chan).groups,
      chan ∉ p.2
  refine discard_clean_preserve _ sessionKey chan ?_
  refine foldl_discard_clean _ L chan ?_
  intro p hp
  exact Or.inl (List.mem_map.mpr ⟨p, hp, rfl⟩)

theorem not_mem_members_of_clean (L : GroupLayer) (g chan : String)
    (h : ∀ p ∈ L.groups, chan ∉ p.2) : chan ∉ groupMembers L g := by
  unfold groupMembers
  rcases hf : L.groups.find? (fun p => p.1 = g) with _ | q
  all_goals rw [hf]
  · exact List.not_mem_nil chan
  · exact h q (List.mem_of_find?_eq_some hf)

theorem discard_eq_self_of_clean (L : GroupLayer) (g chan : String)
    (h : ∀ p ∈ L.groups, chan ∉ p.2) : group_discard L g chan = L := by
  obtain ⟨gs⟩ := L
  unfold group_discard
  congr 1
  show gs.map (fun p => if p.1 = g then (p.1, p.2.filter (fun c => c ≠ chan))
      else p) = gs
  induction gs with
  | nil => rfl
  | cons p rest ih =>
      have hp : chan ∉ p.2 := h p (List.mem_cons_self p rest)
      have hrest : ∀ q ∈ rest, chan ∉ q.2 :=
        fun q hq => h q (List.mem_cons_of_mem p hq)
      rw [List.map_cons, ih hrest]
      by_cases h1 : p.1 = g
      · rw [if_pos h1, filter_ne_self p.2 chan hp]
      · rw [if_neg h1]

/-- C9 (confirmed): after the disconnect step of a connection with a
session, the connection's channel is a member of no group — every group it
joined, by any sequence of subscribes and regardless of prior layer state,
including the session-key group, no longer contains it — and disconnecting
again is a no-op (idempotent). -/
theorem c9_disconnect_leaves_every_group (L : GroupLayer)
    (sessionKey chan : String) :
    (∀ g, chan ∉ groupMembers (disconnect true sessionKey chan L) g)
    ∧ disconnect true sessionKey chan (disconnect true sessionKey chan L)
        = disconnect true sessionKey chan L
    ∧ (∀ parsed raw g, chan ∉ groupMembers
        (disconnect true sessionKey chan (subscribe L parsed raw chan)) g) := by
  have hidfold : ∀ (ks : List String) (L' : GroupLayer),
      (∀ p ∈ L'.groups, chan ∉ p.2) →
      ks.foldl (fun acc k => group_discard acc k chan) L' = L' := by
    intro ks
    induction ks with
    | nil => intro L' h; rfl
    | cons k rest ih =>
        intro L' h
        show rest.foldl _ (group_discard L' k chan) = L'
        rw [discard_eq_self_of_clean L' k chan h]
        exact ih L' h
  refine ⟨?_, ?_, ?_⟩
  · intro g
    exact not_mem_members_of_clean _ g chan (disconnect_clean L sessionKey chan)
  · have hclean := disconnect_clean L sessionKey chan
    show group_discard
        (((disconnect true sessionKey chan L).groups.map (fun p => p.1)).foldl
          (fun acc g => group_discard acc g chan)
          (disconnect true sessionKey chan L)) sessionKey chan
      = disconnect true sessionKey chan L
    rw [hidfold _ _ hclean]
    exact discard_eq_self_of_clean _ sessionKey chan hclean
  · intro parsed raw g
    exact not_mem_members_of_clean _ g chan
      (disconnect_clean (subscribe L parsed raw chan) sessionKey chan)

end Sockpuppet
